import Mathlib

/-!
Shallow embedding of the Startup Company Data Manager service
(`main.py`, `models.py`, `schemas.py`): a CRUD service over Company and
Product records with a bulk JSON loader, pagination, case-insensitive
name uniqueness and cascade delete.

The relational store is modelled as explicit lists kept in insertion
order (matching the store-default order used by the queries).  Each
HTTP handler becomes a pure function from its inputs and the database
state to `Except ApiError` of its result; handlers that write return
the new state.  Pydantic request validation, which FastAPI runs before
a handler body, is modelled by `parse`/`valid` functions on raw
payloads with optional fields; the `*_endpoint` functions compose that
validation with the handler body, exactly as the framework does.
-/

/-- The closed set of `industry` values (`schemas.py`, `CompanyBase.industry`). -/
def industries : List String := ["FinTech", "HealthTech", "EdTech", "E-commerce", "SaaS"]

/-- The closed set of `pricing_model` values (`schemas.py`, `ProductBase.pricing_model`). -/
def pricingModels : List String := ["Free", "Freemium", "Subscription", "Enterprise"]

/-- ASCII lowercase of a string, modelling SQL `lower()` as used by
`func.lower(...)` in the uniqueness queries. -/
def lowerStr (s : String) : String := String.mk (s.data.map Char.toLower)

/-- A persisted company row (`models.py`, class `Company`). -/
structure Company where
  id : Nat
  name : String
  tagline : String
  description : String
  industry : String
  founded_year : Int
  employee_count : Int
  headquarters : String
  website_url : Option String
  created_at : Nat
deriving Repr, DecidableEq

/-- A persisted product row (`models.py`, class `Product`). -/
structure Product where
  id : Nat
  company_id : Nat
  name : String
  description : String
  target_audience : String
  key_features : String
  pricing_model : String
  created_at : Nat
deriving Repr, DecidableEq

/-- The database state: both tables in insertion order, plus the
autoincrement counters the store uses to assign primary keys. -/
structure DB where
  companies : List Company
  products : List Product
  nextCompanyId : Nat
  nextProductId : Nat
deriving Repr, DecidableEq

def emptyDB : DB := ⟨[], [], 1, 1⟩

/-- API errors surfaced as HTTP statuses.  `validationError` is a
request-body schema violation (rejected by the validation layer before
the handler body runs); the boundary maps it to a 4xx response.
`internalError` is an exception the handler body does not catch, which
the framework surfaces as HTTP 500. -/
inductive ApiError where
  | notFound (detail : String)
  | badRequest (detail : String)
  | validationError (detail : String)
  | internalError (detail : String)
deriving Repr, DecidableEq

def ApiError.code : ApiError → Nat
  | .notFound _ => 404
  | .badRequest _ => 400
  | .validationError _ => 422
  | .internalError _ => 500

/-- Validated company payload (`schemas.py`, `CompanyBase`; `CompanyCreate`
and `CompanyUpdate` add no fields). -/
structure CompanyBase where
  name : String
  tagline : String
  description : String
  industry : String
  founded_year : Int
  employee_count : Int
  headquarters : String
  website_url : Option String
deriving Repr, DecidableEq

/-- The field contracts of `CompanyBase` (`schemas.py` lines 37-46). -/
def CompanyBase.valid (c : CompanyBase) : Bool :=
  1 ≤ c.name.length && c.name.length ≤ 255 &&
  1 ≤ c.tagline.length && c.tagline.length ≤ 100 &&
  1 ≤ c.description.length &&
  industries.contains c.industry &&
  2015 ≤ c.founded_year && c.founded_year ≤ 2024 &&
  0 < c.employee_count &&
  1 ≤ c.headquarters.length && c.headquarters.length ≤ 255 &&
  (match c.website_url with
   | none => true
   | some u => u.length ≤ 255)

/-- A raw JSON request body for a company: every field may be absent.
`website_url` defaults to `None` in the schema, so absence is a value. -/
structure RawCompanyPayload where
  name : Option String
  tagline : Option String
  description : Option String
  industry : Option String
  founded_year : Option Int
  employee_count : Option Int
  headquarters : Option String
  website_url : Option String
deriving Repr, DecidableEq

/-- Field-presence check: every required field of `CompanyBase` must be
present (Pydantic `Field(...)`); `website_url` is optional. -/
def parseCompanyBase (r : RawCompanyPayload) : Option CompanyBase :=
  match r.name, r.tagline, r.description, r.industry, r.founded_year,
        r.employee_count, r.headquarters with
  | some name, some tagline, some description, some industry, some founded_year,
    some employee_count, some headquarters =>
    some ⟨name, tagline, description, industry, founded_year, employee_count,
          headquarters, r.website_url⟩
  | _, _, _, _, _, _, _ => none

/-- Full Pydantic validation of a company body: field presence plus the
field contracts.  `none` means the request is rejected with a
validation error before the handler body runs. -/
def validateCompanyPayload (r : RawCompanyPayload) : Option CompanyBase :=
  match parseCompanyBase r with
  | none => none
  | some c => if c.valid then some c else none

/-- Validated product payload (`schemas.py`, `ProductBase`). -/
structure ProductBase where
  name : String
  description : String
  target_audience : String
  key_features : String
  pricing_model : String
deriving Repr, DecidableEq

/-- The field contracts of `ProductBase` (`schemas.py` lines 8-14). -/
def ProductBase.valid (p : ProductBase) : Bool :=
  1 ≤ p.name.length && p.name.length ≤ 255 &&
  1 ≤ p.description.length &&
  1 ≤ p.target_audience.length && p.target_audience.length ≤ 255 &&
  1 ≤ p.key_features.length &&
  pricingModels.contains p.pricing_model

/-- Validated product-create payload (`schemas.py`, `ProductCreate`):
the base fields plus the owning company id (`Field(..., gt=0)`). -/
structure ProductCreatePayload where
  base : ProductBase
  company_id : Nat
deriving Repr, DecidableEq

/-- A raw JSON request body for a product. -/
structure RawProductPayload where
  name : Option String
  description : Option String
  target_audience : Option String
  key_features : Option String
  pricing_model : Option String
  company_id : Option Nat
deriving Repr, DecidableEq

def parseProductBase (r : RawProductPayload) : Option ProductBase :=
  match r.name, r.description, r.target_audience, r.key_features, r.pricing_model with
  | some name, some description, some target_audience, some key_features,
    some pricing_model =>
    some ⟨name, description, target_audience, key_features, pricing_model⟩
  | _, _, _, _, _ => none

/-- Pydantic validation of a `ProductUpdate` body (no `company_id`). -/
def validateProductUpdate (r : RawProductPayload) : Option ProductBase :=
  match parseProductBase r with
  | none => none
  | some p => if p.valid then some p else none

/-- Pydantic validation of a `ProductCreate` body. -/
def validateProductCreate (r : RawProductPayload) : Option ProductCreatePayload :=
  match parseProductBase r with
  | none => none
  | some p =>
    match r.company_id with
    | none => none
    | some cid => if p.valid && 0 < cid then some ⟨p, cid⟩ else none

/-- `db.query(Company).filter(func.lower(Company.name) == func.lower(name)).first()`. -/
def findByNameCi (db : DB) (name : String) : Option Company :=
  db.companies.find? (fun c => lowerStr c.name == lowerStr name)

/-- `db.query(Company).filter(Company.id == company_id).first()`. -/
def findCompanyById (db : DB) (company_id : Nat) : Option Company :=
  db.companies.find? (fun c => c.id == company_id)

/-- `db.query(Product).filter(Product.id == product_id).first()`. -/
def findProductById (db : DB) (product_id : Nat) : Option Product :=
  db.products.find? (fun p => p.id == product_id)

/-! ## Bulk loader (`main.py`, `load_data_from_json`) -/

/-- A product entry of the seed document: product fields without
`id`/`company_id`/`created_at` (those are assigned on insert). -/
structure SeedProduct where
  name : String
  description : String
  target_audience : String
  key_features : String
  pricing_model : String
deriving Repr, DecidableEq

/-- A company entry of the seed document: company fields plus nested
products, in document order. -/
structure SeedCompany where
  name : String
  tagline : String
  description : String
  industry : String
  founded_year : Int
  employee_count : Int
  headquarters : String
  website_url : Option String
  products : List SeedProduct
deriving Repr, DecidableEq

/-- The parsed seed document: the `companies` array
(`data.get("companies", [])`; a missing key reads as the empty list). -/
structure SeedDocument where
  companies : List SeedCompany
deriving Repr, DecidableEq

/-- The inner classification of the load input used by the handler body
once reading and decoding produced a document of the expected shape:
the file may be missing (`FileNotFoundError`), syntactically
unparseable (`json.JSONDecodeError`), or decoded into a conforming
document.  A JSON value that parses but does NOT have the expected
structure is not representable here; the full routed surface including
that case is `RawLoadInput` / `load_data_route` below. -/
inductive LoadInput where
  | fileMissing
  | parseError
  | parsed (doc : SeedDocument)
deriving Repr, DecidableEq

structure LoadDataResponse where
  loaded : Nat
  skipped : Nat
  total : Nat
deriving Repr, DecidableEq

/-- The inner product loop: `Product(company_id=company.id, **product_data)`
then `db.add(product)`, for each nested product in document order.
No schema validation is applied. -/
def insertSeedProducts (cid : Nat) (now : Nat) (pds : List SeedProduct) (db : DB) : DB :=
  pds.foldl (fun d pd =>
    { d with
      products := d.products ++
        [⟨d.nextProductId, cid, pd.name, pd.description, pd.target_audience,
          pd.key_features, pd.pricing_model, now⟩],
      nextProductId := d.nextProductId + 1 }) db

/-- Insert one seed company and its nested products:
`Company(**company_data)`, `db.add`, `db.flush()` (assigns the id and
makes the row visible to later queries in the same load), then the
product loop.  No schema validation is applied. -/
def insertSeedCompany (cd : SeedCompany) (now : Nat) (db : DB) : DB :=
  let c : Company :=
    ⟨db.nextCompanyId, cd.name, cd.tagline, cd.description, cd.industry,
     cd.founded_year, cd.employee_count, cd.headquarters, cd.website_url, now⟩
  insertSeedProducts c.id now cd.products
    { db with companies := db.companies ++ [c], nextCompanyId := db.nextCompanyId + 1 }

/-- The per-company loop of the loader, in document order, threading the
evolving database and the `loaded`/`skipped` counters.  A record whose
name matches an existing company case-insensitively is skipped; any
other record is inserted with its products. -/
def loadCompanies (docs : List SeedCompany) (now : Nat) (db : DB)
    (loaded skipped : Nat) : DB × Nat × Nat :=
  match docs with
  | [] => (db, loaded, skipped)
  | cd :: rest =>
    match findByNameCi db cd.name with
    | some _ => loadCompanies rest now db loaded (skipped + 1)
    | none => loadCompanies rest now (insertSeedCompany cd now db) (loaded + 1) skipped

/-- `POST /load-data`.  Opening/parsing the file happens before any
store access; on failure the handler raises without touching the store
(the error branches return no state, so the caller keeps the old
database unchanged). -/
def load_data_from_json (input : LoadInput) (now : Nat) (db : DB) :
    Except ApiError (DB × LoadDataResponse) :=
  match input with
  | .fileMissing => .error (.notFound "startup_data.json file not found")
  | .parseError => .error (.badRequest "Invalid JSON format in startup_data.json")
  | .parsed doc =>
    let r := loadCompanies doc.companies now db 0 0
    .ok (r.1, ⟨r.2.1, r.2.2, doc.companies.length⟩)

/-! ## Company endpoints -/

structure PaginatedResponse where
  items : List Company
  total : Nat
  page : Int
  page_size : Int
deriving Repr, DecidableEq

/-- `GET /companies?page=&page_size=`: bounds checks first, then the
count and the `offset ((page-1)*page_size) limit page_size` query. -/
def get_companies (page page_size : Int) (db : DB) : Except ApiError PaginatedResponse :=
  if page < 1 then
    .error (.badRequest "Page number must be at least 1")
  else if page_size < 1 ∨ page_size > 100 then
    .error (.badRequest "Page size must be between 1 and 100")
  else
    let total := db.companies.length
    let skip := ((page - 1) * page_size).toNat
    let items := (db.companies.drop skip).take page_size.toNat
    .ok ⟨items, total, page, page_size⟩

/-- `GET /companies/{id}`: the company with its nested products. -/
def get_company (company_id : Nat) (db : DB) :
    Except ApiError (Company × List Product) :=
  match findCompanyById db company_id with
  | none => .error (.notFound "Company not found")
  | some c => .ok (c, db.products.filter (fun p => p.company_id == company_id))

/-- Handler body of `POST /companies` (after request validation). -/
def create_company (payload : CompanyBase) (now : Nat) (db : DB) :
    Except ApiError (DB × Company) :=
  match findByNameCi db payload.name with
  | some _ => .error (.badRequest "Company with this name already exists")
  | none =>
    let c : Company :=
      ⟨db.nextCompanyId, payload.name, payload.tagline, payload.description,
       payload.industry, payload.founded_year, payload.employee_count,
       payload.headquarters, payload.website_url, now⟩
    .ok ({ db with companies := db.companies ++ [c],
                   nextCompanyId := db.nextCompanyId + 1 }, c)

/-- `POST /companies` including the request-body validation FastAPI
performs before the handler body. -/
def create_company_endpoint (raw : RawCompanyPayload) (now : Nat) (db : DB) :
    Except ApiError (DB × Company) :=
  match validateCompanyPayload raw with
  | none => .error (.validationError "invalid company payload")
  | some payload => create_company payload now db

/-- `for key, value in company.model_dump().items(): setattr(...)`:
`model_dump` of a `CompanyUpdate` holds exactly the base fields, so the
assignment loop overwrites those and nothing else. -/
def applyCompanyUpdate (payload : CompanyBase) (c : Company) : Company :=
  { c with
    name := payload.name, tagline := payload.tagline,
    description := payload.description, industry := payload.industry,
    founded_year := payload.founded_year,
    employee_count := payload.employee_count,
    headquarters := payload.headquarters,
    website_url := payload.website_url }

/-- Handler body of `PUT /companies/{id}`: 404 if absent; if the new
name differs (case-sensitively) from the stored one, a case-insensitive
conflict lookup that does not exclude the record itself; then the
field-assignment loop. -/
def update_company (company_id : Nat) (payload : CompanyBase) (db : DB) :
    Except ApiError (DB × Company) :=
  match findCompanyById db company_id with
  | none => .error (.notFound "Company not found")
  | some dbc =>
    let doUpdate : Except ApiError (DB × Company) :=
      .ok ({ db with
              companies := db.companies.map
                (fun c => if c.id == company_id then applyCompanyUpdate payload c else c) },
           applyCompanyUpdate payload dbc)
    if payload.name ≠ dbc.name then
      match findByNameCi db payload.name with
      | some _ => .error (.badRequest "Company with this name already exists")
      | none => doUpdate
    else doUpdate

/-- `PUT /companies/{id}` including request-body validation. -/
def update_company_endpoint (company_id : Nat) (raw : RawCompanyPayload) (db : DB) :
    Except ApiError (DB × Company) :=
  match validateCompanyPayload raw with
  | none => .error (.validationError "invalid company payload")
  | some payload => update_company company_id payload db

/-- `DELETE /companies/{id}`: `db.delete(company)` with the
`cascade="all, delete-orphan"` relationship removes the company and
every product whose `company_id` references it. -/
def delete_company (company_id : Nat) (db : DB) : Except ApiError DB :=
  match findCompanyById db company_id with
  | none => .error (.notFound "Company not found")
  | some _ =>
    .ok { db with
          companies := db.companies.filter (fun c => c.id != company_id),
          products := db.products.filter (fun p => p.company_id != company_id) }

/-! ## Product endpoints -/

/-- `GET /products`. -/
def get_products (db : DB) : List Product := db.products

/-- `GET /products/{id}`. -/
def get_product (product_id : Nat) (db : DB) : Except ApiError Product :=
  match findProductById db product_id with
  | none => .error (.notFound "Product not found")
  | some p => .ok p

/-- Handler body of `POST /products`: reject if the referenced company
does not exist, otherwise insert. -/
def create_product (payload : ProductCreatePayload) (now : Nat) (db : DB) :
    Except ApiError (DB × Product) :=
  match findCompanyById db payload.company_id with
  | none => .error (.badRequest "Company with this id does not exist")
  | some _ =>
    let p : Product :=
      ⟨db.nextProductId, payload.company_id, payload.base.name,
       payload.base.description, payload.base.target_audience,
       payload.base.key_features, payload.base.pricing_model, now⟩
    .ok ({ db with products := db.products ++ [p],
                   nextProductId := db.nextProductId + 1 }, p)

/-- `POST /products` including request-body validation. -/
def create_product_endpoint (raw : RawProductPayload) (now : Nat) (db : DB) :
    Except ApiError (DB × Product) :=
  match validateProductCreate raw with
  | none => .error (.validationError "invalid product payload")
  | some payload => create_product payload now db

/-- The assignment loop of `PUT /products/{id}`: `model_dump` of a
`ProductUpdate` holds exactly the product base fields (no `company_id`). -/
def applyProductUpdate (payload : ProductBase) (p : Product) : Product :=
  { p with
    name := payload.name, description := payload.description,
    target_audience := payload.target_audience,
    key_features := payload.key_features,
    pricing_model := payload.pricing_model }

/-- Handler body of `PUT /products/{id}`. -/
def update_product (product_id : Nat) (payload : ProductBase) (db : DB) :
    Except ApiError (DB × Product) :=
  match findProductById db product_id with
  | none => .error (.notFound "Product not found")
  | some dbp =>
    .ok ({ db with
            products := db.products.map
              (fun p => if p.id == product_id then applyProductUpdate payload p else p) },
         applyProductUpdate payload dbp)

/-- `PUT /products/{id}` including request-body validation. -/
def update_product_endpoint (product_id : Nat) (raw : RawProductPayload) (db : DB) :
    Except ApiError (DB × Product) :=
  match validateProductUpdate raw with
  | none => .error (.validationError "invalid product payload")
  | some payload => update_product product_id payload db

/-- `DELETE /products/{id}`. -/
def delete_product (product_id : Nat) (db : DB) : Except ApiError DB :=
  match findProductById db product_id with
  | none => .error (.notFound "Product not found")
  | some _ =>
    .ok { db with products := db.products.filter (fun p => p.id != product_id) }

/-! ## State-changing operations as one type, for invariant theorems -/

/-- Every state-changing endpoint of the service (the read endpoints
return no state, so they cannot change it). -/
inductive Op where
  | loadData (input : LoadInput) (now : Nat)
  | createCompany (raw : RawCompanyPayload) (now : Nat)
  | updateCompany (company_id : Nat) (raw : RawCompanyPayload)
  | deleteCompany (company_id : Nat)
  | createProduct (raw : RawProductPayload) (now : Nat)
  | updateProduct (product_id : Nat) (raw : RawProductPayload)
  | deleteProduct (product_id : Nat)
deriving Repr, DecidableEq

/-- The database state after an operation: the new state on success,
the old state when the endpoint raised (the transaction never commits). -/
def applyOp (op : Op) (db : DB) : DB :=
  match op with
  | .loadData input now =>
    match load_data_from_json input now db with
    | .ok (db2, _) => db2
    | .error _ => db
  | .createCompany raw now =>
    match create_company_endpoint raw now db with
    | .ok (db2, _) => db2
    | .error _ => db
  | .updateCompany cid raw =>
    match update_company_endpoint cid raw db with
    | .ok (db2, _) => db2
    | .error _ => db
  | .deleteCompany cid =>
    match delete_company cid db with
    | .ok db2 => db2
    | .error _ => db
  | .createProduct raw now =>
    match create_product_endpoint raw now db with
    | .ok (db2, _) => db2
    | .error _ => db
  | .updateProduct pid raw =>
    match update_product_endpoint pid raw db with
    | .ok (db2, _) => db2
    | .error _ => db
  | .deleteProduct pid =>
    match delete_product pid db with
    | .ok db2 => db2
    | .error _ => db

/-- Referential integrity: every stored product's `company_id` refers
to an existing company. -/
def noOrphans (db : DB) : Prop :=
  ∀ p ∈ db.products, ∃ c ∈ db.companies, c.id = p.company_id

/-! ## The full `/load-data` surface, including structurally invalid JSON

`main.py` catches only `FileNotFoundError` (404) and
`json.JSONDecodeError` (400).  A document that is valid JSON but not of
the expected structure flows into the handler body and raises an
exception nothing catches (`AttributeError` when the top level is not
an object, `KeyError`/`TypeError` when a company entry lacks the
expected fields), which the framework surfaces as HTTP 500.
`db.commit()` is then never reached, so nothing is committed; the
session teardown lives in `database.py` (standard yield/close
dependency, not among the sources), so per the spec's transaction-like
unit of work the uncommitted inserts are not visible to readers. -/

/-- One element of the sequence the loader's `for` loop iterates over:
either a JSON object carrying the expected company fields, or any other
JSON value (a non-object, an object without a `name` key, ...), which
the loop body does not handle.  A `companies` value that is not an
array at all likewise escapes as an uncaught exception, observably the
same as a leading non-conforming entry. -/
inductive RawSeedEntry where
  | record (cd : SeedCompany)
  | malformed
deriving Repr, DecidableEq

/-- Outcome of `open` + `json.load` on `startup_data.json` over the
shapes the route distinguishes: missing file (`FileNotFoundError`),
syntactically invalid JSON (`json.JSONDecodeError`), a valid JSON value
whose top level is not an object (`data.get` then raises
`AttributeError`), or a JSON object, whose `companies` array (a missing
key reads as the empty list) is a sequence of raw entries. -/
inductive RawLoadInput where
  | fileMissing
  | parseError
  | parsedNonObject
  | parsedObj (entries : List RawSeedEntry)
deriving Repr, DecidableEq

/-- The loader's loop over the raw `companies` entries.  A conforming
entry is processed exactly as in `loadCompanies`; a non-conforming
entry makes `company_data["name"]` (or the row constructor) raise an
exception the handler does not catch, so the loop aborts and
`db.commit()` is never executed (the error return carries no state:
nothing is committed). -/
def loadRawEntries (entries : List RawSeedEntry) (now : Nat) (db : DB)
    (loaded skipped : Nat) : Except ApiError (DB × Nat × Nat) :=
  match entries with
  | [] => .ok (db, loaded, skipped)
  | .malformed :: _ => .error (.internalError "unhandled exception in load loop")
  | .record cd :: rest =>
    match findByNameCi db cd.name with
    | some _ => loadRawEntries rest now db loaded (skipped + 1)
    | none => loadRawEntries rest now (insertSeedCompany cd now db) (loaded + 1) skipped

/-- `POST /load-data` as routed: file reading and JSON decoding happen
first, and only `FileNotFoundError` (404) and `json.JSONDecodeError`
(400) are caught; any other shape of valid JSON reaches the handler
body and fails with an uncaught exception (HTTP 500) where its
structure does not match. -/
def load_data_route (input : RawLoadInput) (now : Nat) (db : DB) :
    Except ApiError (DB × LoadDataResponse) :=
  match input with
  | .fileMissing => .error (.notFound "startup_data.json file not found")
  | .parseError => .error (.badRequest "Invalid JSON format in startup_data.json")
  | .parsedNonObject => .error (.internalError "AttributeError in data.get")
  | .parsedObj entries =>
    match loadRawEntries entries now db 0 0 with
    | .error e => .error e
    | .ok (db2, l, s) => .ok (db2, ⟨l, s, entries.length⟩)

deriving instance DecidableEq for Except

/-! ## Shared helper lemmas -/

theorem getElem?_drop_add {α : Type} (l : List α) (n i : Nat) :
    (l.drop n)[i]? = l[n + i]? := by
  induction n generalizing l with
  | zero => simp
  | succ n ih =>
    cases l with
    | nil => simp
    | cons a t => simp [Nat.succ_add, ih]

theorem findByNameCi_isSome_of_mem {db : DB} {c : Company} {name : String}
    (hc : c ∈ db.companies) (hlow : lowerStr c.name = lowerStr name) :
    ∃ x, findByNameCi db name = some x := by
  have h : (findByNameCi db name).isSome := by
    rw [findByNameCi, List.find?_isSome]
    exact ⟨c, hc, by simp [hlow]⟩
  exact Option.isSome_iff_exists.mp h

theorem findByNameCi_none_sound {db : DB} {name : String}
    (h : findByNameCi db name = none) :
    ∀ c ∈ db.companies, lowerStr c.name ≠ lowerStr name := by
  intro c hc
  have h2 := List.find?_eq_none.mp h c hc
  intro he
  exact h2 (by rw [he]; simp)

theorem findCompanyById_some_of_mem {db : DB} {c : Company}
    (hc : c ∈ db.companies) : ∃ x, findCompanyById db c.id = some x ∧
      x ∈ db.companies ∧ x.id = c.id := by
  have h : (findCompanyById db c.id).isSome := by
    rw [findCompanyById, List.find?_isSome]
    exact ⟨c, hc, by simp⟩
  obtain ⟨x, hx⟩ := Option.isSome_iff_exists.mp h
  refine ⟨x, hx, List.mem_of_find?_eq_some hx, ?_⟩
  have hx2 : db.companies.find? (fun y => y.id == c.id) = some x := hx
  have hb : (x.id == c.id) = true :=
    @List.find?_some _ (fun y => y.id == c.id) x db.companies hx2
  exact beq_iff_eq.mp hb

theorem create_company_ok_inv {payload : CompanyBase} {now : Nat} {db db2 : DB}
    {c : Company} (h : create_company payload now db = .ok (db2, c)) :
    db2.companies = db.companies ++ [c] ∧ db2.products = db.products := by
  unfold create_company at h
  split at h
  · exact absurd h (by simp)
  · simp only [Except.ok.injEq, Prod.mk.injEq] at h
    obtain ⟨h1, h2⟩ := h
    subst h1; subst h2
    exact ⟨rfl, rfl⟩

theorem update_company_ok_inv {company_id : Nat} {payload : CompanyBase}
    {db db2 : DB} {r : Company}
    (h : update_company company_id payload db = .ok (db2, r)) :
    db2.companies = db.companies.map
      (fun c => if c.id == company_id then applyCompanyUpdate payload c else c) ∧
    db2.products = db.products := by
  unfold update_company at h
  split at h
  · exact absurd h (by simp)
  · split at h
    · split at h
      · exact absurd h (by simp)
      · simp only [Except.ok.injEq, Prod.mk.injEq] at h
        obtain ⟨h1, _⟩ := h
        subst h1
        exact ⟨rfl, rfl⟩
    · simp only [Except.ok.injEq, Prod.mk.injEq] at h
      obtain ⟨h1, _⟩ := h
      subst h1
      exact ⟨rfl, rfl⟩

theorem delete_company_ok_inv {company_id : Nat} {db db2 : DB}
    (h : delete_company company_id db = .ok db2) :
    db2.companies = db.companies.filter (fun c => c.id != company_id) ∧
    db2.products = db.products.filter (fun p => p.company_id != company_id) := by
  unfold delete_company at h
  split at h
  · exact absurd h (by simp)
  · simp only [Except.ok.injEq] at h
    subst h
    exact ⟨rfl, rfl⟩

theorem create_product_ok_inv {payload : ProductCreatePayload} {now : Nat}
    {db db2 : DB} {p : Product}
    (h : create_product payload now db = .ok (db2, p)) :
    db2.companies = db.companies ∧ db2.products = db.products ++ [p] ∧
    p.company_id = payload.company_id ∧
    ∃ c ∈ db.companies, c.id = payload.company_id := by
  unfold create_product at h
  split at h
  · exact absurd h (by simp)
  · rename_i c0 hc0
    simp only [Except.ok.injEq, Prod.mk.injEq] at h
    obtain ⟨h1, h2⟩ := h
    subst h1; subst h2
    refine ⟨rfl, rfl, rfl, c0, List.mem_of_find?_eq_some hc0, ?_⟩
    have := List.find?_some hc0
    simpa using this

theorem update_product_ok_inv {product_id : Nat} {payload : ProductBase}
    {db db2 : DB} {r : Product}
    (h : update_product product_id payload db = .ok (db2, r)) :
    db2.companies = db.companies ∧
    db2.products = db.products.map
      (fun p => if p.id == product_id then applyProductUpdate payload p else p) := by
  unfold update_product at h
  split at h
  · exact absurd h (by simp)
  · simp only [Except.ok.injEq, Prod.mk.injEq] at h
    obtain ⟨h1, _⟩ := h
    subst h1
    exact ⟨rfl, rfl⟩

theorem delete_product_ok_inv {product_id : Nat} {db db2 : DB}
    (h : delete_product product_id db = .ok db2) :
    db2.companies = db.companies ∧
    db2.products = db.products.filter (fun p => p.id != product_id) := by
  unfold delete_product at h
  split at h
  · exact absurd h (by simp)
  · simp only [Except.ok.injEq] at h
    subst h
    exact ⟨rfl, rfl⟩

theorem insertSeedProducts_companies (cid now : Nat) (pds : List SeedProduct) :
    ∀ d : DB, (insertSeedProducts cid now pds d).companies = d.companies := by
  induction pds with
  | nil => intro d; rfl
  | cons sp t ih =>
    intro d
    show (insertSeedProducts cid now t _).companies = d.companies
    rw [ih]

theorem insertSeedProducts_proj (cid now : Nat) (pds : List SeedProduct) :
    ∀ d : DB, (insertSeedProducts cid now pds d).products.map
        (fun p => (p.company_id, p.name, p.description, p.target_audience,
                   p.key_features, p.pricing_model, p.created_at)) =
      d.products.map
        (fun p => (p.company_id, p.name, p.description, p.target_audience,
                   p.key_features, p.pricing_model, p.created_at)) ++
      pds.map (fun sp => (cid, sp.name, sp.description, sp.target_audience,
                          sp.key_features, sp.pricing_model, now)) := by
  induction pds with
  | nil => intro d; simp [insertSeedProducts]
  | cons sp t ih =>
    intro d
    show (insertSeedProducts cid now t _).products.map _ = _
    rw [ih]
    simp

theorem mem_insertSeedProducts {cid now : Nat} {pds : List SeedProduct} :
    ∀ {d : DB} {p : Product}, p ∈ (insertSeedProducts cid now pds d).products →
      p ∈ d.products ∨ p.company_id = cid := by
  induction pds with
  | nil => intro d p hp; exact Or.inl hp
  | cons sp t ih =>
    intro d p hp
    rcases ih hp with h | h
    · rcases List.mem_append.mp h with h2 | h2
      · exact Or.inl h2
      · right
        have : p = ⟨d.nextProductId, cid, sp.name, sp.description,
                    sp.target_audience, sp.key_features, sp.pricing_model, now⟩ := by
          simpa using h2
        rw [this]
    · exact Or.inr h

theorem loadCompanies_counts (docs : List SeedCompany) (now : Nat) :
    ∀ (db : DB) (l s : Nat),
      (loadCompanies docs now db l s).2.1 + (loadCompanies docs now db l s).2.2 =
        l + s + docs.length := by
  induction docs with
  | nil => intro db l s; simp [loadCompanies]
  | cons cd rest ih =>
    intro db l s
    unfold loadCompanies
    cases h : findByNameCi db cd.name with
    | some x => rw [ih]; simp only [List.length_cons]; omega
    | none => rw [ih]; simp only [List.length_cons]; omega

/-- C1: for every parsed seed document, the bulk load walks the company
records in document order, skipping (with `skipped+1` and an unchanged
store) any record whose name matches an existing company
case-insensitively, inserting any other record together with its nested
products (with `loaded+1`), and returns `{loaded, skipped, total}` with
`total` the number of company records and `loaded + skipped = total`. -/
theorem bulk_load_spec :
    (∀ (doc : SeedDocument) (now : Nat) (db : DB),
      ∃ (db2 : DB) (l s : Nat),
        load_data_from_json (.parsed doc) now db = .ok (db2, ⟨l, s, doc.companies.length⟩) ∧
        l + s = doc.companies.length) ∧
    (∀ (cd : SeedCompany) (rest : List SeedCompany) (now : Nat) (db : DB) (l s : Nat),
      (findByNameCi db cd.name).isSome →
      loadCompanies (cd :: rest) now db l s = loadCompanies rest now db l (s + 1)) ∧
    (∀ (cd : SeedCompany) (rest : List SeedCompany) (now : Nat) (db : DB) (l s : Nat),
      findByNameCi db cd.name = none →
      loadCompanies (cd :: rest) now db l s =
        loadCompanies rest now (insertSeedCompany cd now db) (l + 1) s) ∧
    (∀ (cd : SeedCompany) (now : Nat) (db : DB),
      ∃ c : Company,
        c.name = cd.name ∧ c.industry = cd.industry ∧
        (insertSeedCompany cd now db).companies = db.companies ++ [c] ∧
        (insertSeedCompany cd now db).products.map
            (fun p => (p.company_id, p.name, p.description, p.target_audience,
                       p.key_features, p.pricing_model, p.created_at)) =
          db.products.map
            (fun p => (p.company_id, p.name, p.description, p.target_audience,
                       p.key_features, p.pricing_model, p.created_at)) ++
          cd.products.map
            (fun sp => (c.id, sp.name, sp.description, sp.target_audience,
                        sp.key_features, sp.pricing_model, now))) := by
  refine ⟨?_, ?_, ?_, ?_⟩
  · intro doc now db
    refine ⟨(loadCompanies doc.companies now db 0 0).1,
            (loadCompanies doc.companies now db 0 0).2.1,
            (loadCompanies doc.companies now db 0 0).2.2, rfl, ?_⟩
    simpa using loadCompanies_counts doc.companies now db 0 0
  · intro cd rest now db l s h
    obtain ⟨x, hx⟩ := Option.isSome_iff_exists.mp h
    have hstep : loadCompanies (cd :: rest) now db l s =
        match findByNameCi db cd.name with
        | some _ => loadCompanies rest now db l (s + 1)
        | none => loadCompanies rest now (insertSeedCompany cd now db) (l + 1) s := rfl
    rw [hstep, hx]
  · intro cd rest now db l s h
    have hstep : loadCompanies (cd :: rest) now db l s =
        match findByNameCi db cd.name with
        | some _ => loadCompanies rest now db l (s + 1)
        | none => loadCompanies rest now (insertSeedCompany cd now db) (l + 1) s := rfl
    rw [hstep, h]
  · intro cd now db
    refine ⟨⟨db.nextCompanyId, cd.name, cd.tagline, cd.description, cd.industry,
             cd.founded_year, cd.employee_count, cd.headquarters, cd.website_url, now⟩,
            rfl, rfl, ?_, ?_⟩
    · unfold insertSeedCompany
      rw [insertSeedProducts_companies]
    · unfold insertSeedCompany
      rw [insertSeedProducts_proj]

def seedAcme : SeedCompany :=
  ⟨"Acme", "tag", "desc", "FinTech", 2020, 10, "Pune, India", none,
   [⟨"Widget", "d", "a", "f", "Free"⟩]⟩

def seedBolt : SeedCompany :=
  ⟨"Bolt", "tag", "desc", "SaaS", 2021, 5, "Delhi, India", none, []⟩

/-- One existing company named ACME (differing from the seed only by case). -/
def dbWithAcme : DB :=
  ⟨[⟨1, "ACME", "t", "d", "FinTech", 2019, 3, "HQ", none, 0⟩], [], 2, 1⟩

theorem bulk_load_spec_witness :
    (∃ (db2 : DB) (l s : Nat),
      load_data_from_json (.parsed ⟨[seedAcme, seedBolt]⟩) 7 dbWithAcme =
        .ok (db2, ⟨l, s, 2⟩) ∧ l + s = 2) ∧
    (findByNameCi dbWithAcme seedAcme.name).isSome = true ∧
    loadCompanies [seedAcme, seedBolt] 7 dbWithAcme 0 0 =
      loadCompanies [seedBolt] 7 dbWithAcme 0 1 ∧
    findByNameCi dbWithAcme seedBolt.name = none ∧
    loadCompanies [seedBolt] 7 dbWithAcme 0 1 =
      loadCompanies [] 7 (insertSeedCompany seedBolt 7 dbWithAcme) 1 1 := by
  refine ⟨?_, by decide, ?_, by decide, ?_⟩
  · simpa using bulk_load_spec.1 ⟨[seedAcme, seedBolt]⟩ 7 dbWithAcme
  · exact bulk_load_spec.2.1 seedAcme [seedBolt] 7 dbWithAcme 0 0 (by decide)
  · exact bulk_load_spec.2.2.1 seedBolt [] 7 dbWithAcme 0 1 (by decide)

/-- C2: for valid `page ≥ 1` and `page_size ∈ [1,100]`, `get_companies`
returns at most `page_size` companies starting at offset
`(page-1) * page_size` in insertion order, with `total` the count of
all companies independent of the page; a page beyond the data yields an
empty item list with the same total, not an error. -/
theorem list_companies_spec (page page_size : Int) (db : DB)
    (hp : 1 ≤ page) (h1 : 1 ≤ page_size) (h2 : page_size ≤ 100) :
    ∃ items : List Company,
      get_companies page page_size db =
        .ok ⟨items, db.companies.length, page, page_size⟩ ∧
      items.length ≤ page_size.toNat ∧
      (∀ i : Nat, i < page_size.toNat →
        items[i]? = db.companies[((page - 1) * page_size).toNat + i]?) ∧
      (db.companies.length ≤ ((page - 1) * page_size).toNat → items = []) := by
  refine ⟨(db.companies.drop ((page - 1) * page_size).toNat).take page_size.toNat,
          ?_, ?_, ?_, ?_⟩
  · unfold get_companies
    rw [if_neg (by omega), if_neg (by omega)]
  · rw [List.length_take]
    exact Nat.min_le_left _ _
  · intro i hi
    rw [List.getElem?_take_of_lt hi, getElem?_drop_add]
  · intro hle
    rw [List.drop_eq_nil_iff.mpr hle, List.take_nil]

def cFin : Company := ⟨1, "Fin", "t", "d", "FinTech", 2020, 5, "HQ", none, 0⟩

def cHealth : Company := ⟨2, "Health", "t", "d", "HealthTech", 2021, 6, "HQ", none, 0⟩

def cEd : Company := ⟨3, "Ed", "t", "d", "EdTech", 2022, 7, "HQ", none, 0⟩

def dbThree : DB := ⟨[cFin, cHealth, cEd], [], 4, 1⟩

theorem list_companies_spec_witness :
    (1 : Int) ≤ 2 ∧ (1 : Int) ≤ 2 ∧ (2 : Int) ≤ 100 ∧
    ∃ items : List Company,
      get_companies 2 2 dbThree = .ok ⟨items, dbThree.companies.length, 2, 2⟩ ∧
      items.length ≤ (2 : Int).toNat ∧
      (∀ i : Nat, i < (2 : Int).toNat →
        items[i]? = dbThree.companies[(((2 : Int) - 1) * 2).toNat + i]?) ∧
      (dbThree.companies.length ≤ (((2 : Int) - 1) * 2).toNat → items = []) :=
  ⟨by decide, by decide, by decide,
   list_companies_spec 2 2 dbThree (by decide) (by decide) (by decide)⟩

theorem loadRawEntries_conforming (cds : List SeedCompany) (now : Nat) :
    ∀ (db : DB) (l s : Nat),
      loadRawEntries (cds.map RawSeedEntry.record) now db l s =
        .ok (loadCompanies cds now db l s) := by
  induction cds with
  | nil => intro db l s; rfl
  | cons cd rest ih =>
    intro db l s
    have hstep1 : loadRawEntries ((cd :: rest).map RawSeedEntry.record) now db l s =
        match findByNameCi db cd.name with
        | some _ => loadRawEntries (rest.map RawSeedEntry.record) now db l (s + 1)
        | none => loadRawEntries (rest.map RawSeedEntry.record) now
            (insertSeedCompany cd now db) (l + 1) s := rfl
    have hstep2 : loadCompanies (cd :: rest) now db l s =
        match findByNameCi db cd.name with
        | some _ => loadCompanies rest now db l (s + 1)
        | none => loadCompanies rest now (insertSeedCompany cd now db) (l + 1) s := rfl
    rw [hstep1, hstep2]
    cases hf : findByNameCi db cd.name with
    | some x => exact ih db l (s + 1)
    | none => exact ih (insertSeedCompany cd now db) (l + 1) s

theorem loadRawEntries_malformed (entries : List RawSeedEntry) (now : Nat) :
    ∀ (db : DB) (l s : Nat), RawSeedEntry.malformed ∈ entries →
      loadRawEntries entries now db l s =
        .error (.internalError "unhandled exception in load loop") := by
  induction entries with
  | nil => intro db l s h; simp at h
  | cons e rest ih =>
    intro db l s h
    cases e with
    | malformed => rfl
    | record cd =>
      have hrest : RawSeedEntry.malformed ∈ rest := by
        rcases List.mem_cons.mp h with h1 | h1
        · simp at h1
        · exact h1
      have hstep : loadRawEntries (RawSeedEntry.record cd :: rest) now db l s =
          match findByNameCi db cd.name with
          | some _ => loadRawEntries rest now db l (s + 1)
          | none => loadRawEntries rest now
              (insertSeedCompany cd now db) (l + 1) s := rfl
      rw [hstep]
      cases hf : findByNameCi db cd.name with
      | some x => exact ih db l (s + 1) hrest
      | none => exact ih (insertSeedCompany cd now db) (l + 1) s hrest

/-- C4 counterexample: a document that is valid JSON but not parseable
as the expected structure does NOT signal MalformedDocument (400).  A
top-level JSON array makes `data.get("companies", [])` raise an
uncaught `AttributeError`, and an object whose company entry lacks the
expected fields fails mid-loop with an uncaught `KeyError`/`TypeError`;
both surface as HTTP 500, refuting the claimed 400 at these concrete
inputs. -/
theorem malformed_structure_not_400_cex :
    load_data_route .parsedNonObject 0 emptyDB =
      .error (.internalError "AttributeError in data.get") ∧
    (ApiError.internalError "AttributeError in data.get").code = 500 ∧
    load_data_route (.parsedObj [.malformed]) 0 emptyDB =
      .error (.internalError "unhandled exception in load loop") ∧
    (ApiError.internalError "unhandled exception in load loop").code = 500 :=
  ⟨rfl, rfl, rfl, rfl⟩

/-- C4 (amended): a missing seed file signals 404 and a syntactically
unparseable one (invalid JSON) signals 400, in both cases before any
store access, leaving the database unchanged; but a document that is
valid JSON without the expected structure is not signalled as
MalformedDocument — it fails with an uncaught exception surfaced as
HTTP 500 (`db.commit()` is never reached on that path, so nothing is
committed). -/
theorem load_failure_cases_amended :
    (∀ (now : Nat) (db : DB),
      load_data_route .fileMissing now db =
        .error (.notFound "startup_data.json file not found") ∧
      applyOp (.loadData .fileMissing now) db = db) ∧
    (∀ (now : Nat) (db : DB),
      load_data_route .parseError now db =
        .error (.badRequest "Invalid JSON format in startup_data.json") ∧
      applyOp (.loadData .parseError now) db = db) ∧
    (ApiError.notFound "startup_data.json file not found").code = 404 ∧
    (ApiError.badRequest "Invalid JSON format in startup_data.json").code = 400 ∧
    (∀ (now : Nat) (db : DB),
      load_data_route .parsedNonObject now db =
        .error (.internalError "AttributeError in data.get")) ∧
    (∀ (entries : List RawSeedEntry) (now : Nat) (db : DB),
      RawSeedEntry.malformed ∈ entries →
      load_data_route (.parsedObj entries) now db =
        .error (.internalError "unhandled exception in load loop")) ∧
    (∀ d : String, (ApiError.internalError d).code = 500) := by
  refine ⟨fun _ _ => ⟨rfl, rfl⟩, fun _ _ => ⟨rfl, rfl⟩, rfl, rfl,
          fun _ _ => rfl, ?_, fun _ => rfl⟩
  intro entries now db h
  have hloop := loadRawEntries_malformed entries now db 0 0 h
  simp [load_data_route, hloop]

theorem load_failure_cases_amended_witness :
    RawSeedEntry.malformed ∈
      [RawSeedEntry.record seedBolt, RawSeedEntry.malformed] ∧
    load_data_route
      (.parsedObj [RawSeedEntry.record seedBolt, RawSeedEntry.malformed]) 0 emptyDB =
      .error (.internalError "unhandled exception in load loop") :=
  ⟨by decide,
   load_failure_cases_amended.2.2.2.2.2.1
     [RawSeedEntry.record seedBolt, RawSeedEntry.malformed] 0 emptyDB (by decide)⟩

/-- C9: any request with `page < 1`, `page_size < 1` or `page_size > 100`
is rejected with a 400 before the store is queried: the error is the
same whatever the database contents.  In particular `page = 0`,
`page_size = 0` and `page_size = 101` are rejected. -/
theorem pagination_bounds_rejected (page page_size : Int) (db : DB)
    (h : page < 1 ∨ page_size < 1 ∨ 100 < page_size) :
    ∃ d, get_companies page page_size db = .error (.badRequest d) ∧
      ∀ db2 : DB, get_companies page page_size db2 = .error (.badRequest d) := by
  by_cases hp : page < 1
  · exact ⟨"Page number must be at least 1",
      by unfold get_companies; rw [if_pos hp],
      fun db2 => by unfold get_companies; rw [if_pos hp]⟩
  · have hs : page_size < 1 ∨ page_size > 100 := by omega
    exact ⟨"Page size must be between 1 and 100",
      by unfold get_companies; rw [if_neg hp, if_pos hs],
      fun db2 => by unfold get_companies; rw [if_neg hp, if_pos hs]⟩

theorem pagination_bounds_rejected_witness :
    ((0 : Int) < 1 ∨ (10 : Int) < 1 ∨ (100 : Int) < 10) ∧
    ((1 : Int) < 1 ∨ (0 : Int) < 1 ∨ (100 : Int) < 0) ∧
    ((1 : Int) < 1 ∨ (101 : Int) < 1 ∨ (100 : Int) < 101) ∧
    (∃ d, get_companies 0 10 dbThree = .error (.badRequest d) ∧
      ∀ db2 : DB, get_companies 0 10 db2 = .error (.badRequest d)) ∧
    (∃ d, get_companies 1 0 dbThree = .error (.badRequest d) ∧
      ∀ db2 : DB, get_companies 1 0 db2 = .error (.badRequest d)) ∧
    (∃ d, get_companies 1 101 dbThree = .error (.badRequest d) ∧
      ∀ db2 : DB, get_companies 1 101 db2 = .error (.badRequest d)) :=
  ⟨by decide, by decide, by decide,
   pagination_bounds_rejected 0 10 dbThree (by decide),
   pagination_bounds_rejected 1 0 dbThree (by decide),
   pagination_bounds_rejected 1 101 dbThree (by decide)⟩

/-- C5: creating a company whose name matches a stored one
case-insensitively fails with a 400 duplicate-name error and persists
nothing; a name colliding with no stored company succeeds and the
persisted record (with the payload's fields and a fresh id) is
returned and appended to the store. -/
theorem create_company_uniqueness :
    (∀ (raw : RawCompanyPayload) (payload : CompanyBase) (now : Nat) (db : DB)
       (c : Company),
      validateCompanyPayload raw = some payload →
      c ∈ db.companies → lowerStr c.name = lowerStr payload.name →
      (∃ d, create_company_endpoint raw now db = .error (.badRequest d) ∧
        (ApiError.badRequest d).code = 400) ∧
      applyOp (.createCompany raw now) db = db) ∧
    (∀ (payload : CompanyBase) (now : Nat) (db : DB),
      (∀ c ∈ db.companies, lowerStr c.name ≠ lowerStr payload.name) →
      ∃ c : Company,
        create_company payload now db =
          .ok ({ db with companies := db.companies ++ [c],
                         nextCompanyId := db.nextCompanyId + 1 }, c) ∧
        c.name = payload.name ∧ c.tagline = payload.tagline ∧
        c.description = payload.description ∧ c.industry = payload.industry ∧
        c.founded_year = payload.founded_year ∧
        c.employee_count = payload.employee_count ∧
        c.headquarters = payload.headquarters ∧
        c.website_url = payload.website_url ∧
        c.id = db.nextCompanyId ∧ c.created_at = now) := by
  constructor
  · intro raw payload now db c hval hc hlow
    obtain ⟨x, hx⟩ := findByNameCi_isSome_of_mem hc hlow
    constructor
    · refine ⟨"Company with this name already exists", ?_, rfl⟩
      simp [create_company_endpoint, hval, create_company, hx]
    · simp [applyOp, create_company_endpoint, hval, create_company, hx]
  · intro payload now db hno
    cases hfind : findByNameCi db payload.name with
    | some x =>
      exact absurd (by simpa using List.find?_some hfind)
        (hno x (List.mem_of_find?_eq_some hfind))
    | none =>
      refine ⟨⟨db.nextCompanyId, payload.name, payload.tagline, payload.description,
               payload.industry, payload.founded_year, payload.employee_count,
               payload.headquarters, payload.website_url, now⟩, ?_,
              rfl, rfl, rfl, rfl, rfl, rfl, rfl, rfl, rfl, rfl⟩
      unfold create_company
      rw [hfind]

def rawBolt : RawCompanyPayload :=
  ⟨some "Bolt", some "tag", some "desc", some "SaaS", some 2021, some 5,
   some "Delhi, India", none⟩

def boltPayload : CompanyBase :=
  ⟨"Bolt", "tag", "desc", "SaaS", 2021, 5, "Delhi, India", none⟩

def rawAcmeUpper : RawCompanyPayload :=
  ⟨some "ACME", some "tag", some "desc", some "SaaS", some 2021, some 5,
   some "Delhi, India", none⟩

def acmeUpperPayload : CompanyBase :=
  ⟨"ACME", "tag", "desc", "SaaS", 2021, 5, "Delhi, India", none⟩

def acmeCompany : Company := ⟨1, "Acme", "t", "d", "FinTech", 2019, 3, "HQ", none, 0⟩

def dbAcmeOnly : DB := ⟨[acmeCompany], [], 2, 1⟩

theorem create_company_uniqueness_witness :
    validateCompanyPayload rawAcmeUpper = some acmeUpperPayload ∧
    acmeCompany ∈ dbAcmeOnly.companies ∧
    lowerStr acmeCompany.name = lowerStr acmeUpperPayload.name ∧
    ((∃ d, create_company_endpoint rawAcmeUpper 3 dbAcmeOnly = .error (.badRequest d) ∧
        (ApiError.badRequest d).code = 400) ∧
      applyOp (.createCompany rawAcmeUpper 3) dbAcmeOnly = dbAcmeOnly) ∧
    (∀ c ∈ dbAcmeOnly.companies, lowerStr c.name ≠ lowerStr boltPayload.name) ∧
    (∃ c : Company,
      create_company boltPayload 3 dbAcmeOnly =
        .ok ({ dbAcmeOnly with
               companies := dbAcmeOnly.companies ++ [c],
               nextCompanyId := dbAcmeOnly.nextCompanyId + 1 }, c) ∧
      c.name = boltPayload.name ∧ c.tagline = boltPayload.tagline ∧
      c.description = boltPayload.description ∧ c.industry = boltPayload.industry ∧
      c.founded_year = boltPayload.founded_year ∧
      c.employee_count = boltPayload.employee_count ∧
      c.headquarters = boltPayload.headquarters ∧
      c.website_url = boltPayload.website_url ∧
      c.id = dbAcmeOnly.nextCompanyId ∧ c.created_at = 3) :=
  ⟨by decide, by decide, by decide,
   create_company_uniqueness.1 rawAcmeUpper acmeUpperPayload 3 dbAcmeOnly
     acmeCompany (by decide) (by decide) (by decide),
   by decide,
   create_company_uniqueness.2 boltPayload 3 dbAcmeOnly (by decide)⟩

/-- C8: creating a product whose `company_id` refers to no stored
company fails with a 400 and persists nothing; when the company exists
the product is created, appended to the store and returned. -/
theorem create_product_requires_company :
    (∀ (payload : ProductCreatePayload) (now : Nat) (db : DB),
      (∀ c ∈ db.companies, c.id ≠ payload.company_id) →
      create_product payload now db =
        .error (.badRequest "Company with this id does not exist") ∧
      (ApiError.badRequest "Company with this id does not exist").code = 400 ∧
      (∀ raw : RawProductPayload, validateProductCreate raw = some payload →
        applyOp (.createProduct raw now) db = db)) ∧
    (∀ (payload : ProductCreatePayload) (now : Nat) (db : DB) (c : Company),
      c ∈ db.companies → c.id = payload.company_id →
      ∃ p : Product,
        create_product payload now db =
          .ok ({ db with products := db.products ++ [p],
                         nextProductId := db.nextProductId + 1 }, p) ∧
        p.company_id = payload.company_id ∧ p.name = payload.base.name ∧
        p.description = payload.base.description ∧
        p.target_audience = payload.base.target_audience ∧
        p.key_features = payload.base.key_features ∧
        p.pricing_model = payload.base.pricing_model ∧
        p.id = db.nextProductId ∧ p.created_at = now) := by
  constructor
  · intro payload now db hno
    have hfind : findCompanyById db payload.company_id = none := by
      rw [findCompanyById, List.find?_eq_none]
      intro c hc
      simpa using hno c hc
    refine ⟨?_, rfl, ?_⟩
    · unfold create_product
      rw [hfind]
    · intro raw hraw
      simp [applyOp, create_product_endpoint, hraw, create_product, hfind]
  · intro payload now db c hc hcid
    have hsome : (findCompanyById db payload.company_id).isSome := by
      rw [findCompanyById, List.find?_isSome]
      exact ⟨c, hc, by simp [hcid]⟩
    obtain ⟨x, hx⟩ := Option.isSome_iff_exists.mp hsome
    refine ⟨⟨db.nextProductId, payload.company_id, payload.base.name,
             payload.base.description, payload.base.target_audience,
             payload.base.key_features, payload.base.pricing_model, now⟩, ?_,
            rfl, rfl, rfl, rfl, rfl, rfl, rfl, rfl⟩
    unfold create_product
    rw [hx]

def widgetCreate : ProductCreatePayload := ⟨⟨"Widget", "d", "a", "f", "Free"⟩, 1⟩

def ghostCreate : ProductCreatePayload := ⟨⟨"Ghost", "d", "a", "f", "Free"⟩, 99999⟩

theorem create_product_requires_company_witness :
    (∀ c ∈ dbAcmeOnly.companies, c.id ≠ ghostCreate.company_id) ∧
    (create_product ghostCreate 5 dbAcmeOnly =
        .error (.badRequest "Company with this id does not exist") ∧
      (ApiError.badRequest "Company with this id does not exist").code = 400 ∧
      (∀ raw : RawProductPayload, validateProductCreate raw = some ghostCreate →
        applyOp (.createProduct raw 5) dbAcmeOnly = dbAcmeOnly)) ∧
    acmeCompany ∈ dbAcmeOnly.companies ∧ acmeCompany.id = widgetCreate.company_id ∧
    (∃ p : Product,
      create_product widgetCreate 5 dbAcmeOnly =
        .ok ({ dbAcmeOnly with
               products := dbAcmeOnly.products ++ [p],
               nextProductId := dbAcmeOnly.nextProductId + 1 }, p) ∧
      p.company_id = widgetCreate.company_id ∧ p.name = widgetCreate.base.name ∧
      p.description = widgetCreate.base.description ∧
      p.target_audience = widgetCreate.base.target_audience ∧
      p.key_features = widgetCreate.base.key_features ∧
      p.pricing_model = widgetCreate.base.pricing_model ∧
      p.id = dbAcmeOnly.nextProductId ∧ p.created_at = 5) :=
  ⟨by decide,
   create_product_requires_company.1 ghostCreate 5 dbAcmeOnly (by decide),
   by decide, by decide,
   create_product_requires_company.2 widgetCreate 5 dbAcmeOnly acmeCompany
     (by decide) (by decide)⟩

/-- C10 (implicit): a PUT whose new name differs from the company's own
stored name only by letter case is rejected as a duplicate even though
no other company holds that name: the inequality guard compares names
case-sensitively, and the case-insensitive conflict lookup does not
exclude the company being updated, so the company finds itself. -/
theorem update_case_only_rename_conflict (db : DB) (c : Company)
    (payload : CompanyBase)
    (hc : c ∈ db.companies)
    (hid : ∀ x ∈ db.companies, x.id = c.id → x = c)
    (hne : payload.name ≠ c.name)
    (hlow : lowerStr payload.name = lowerStr c.name)
    (honly : ∀ x ∈ db.companies, lowerStr x.name = lowerStr payload.name → x = c) :
    update_company c.id payload db =
      .error (.badRequest "Company with this name already exists") := by
  obtain ⟨x, hx, hxm, hxid⟩ := findCompanyById_some_of_mem hc
  have hxc : x = c := hid x hxm hxid
  subst hxc
  obtain ⟨y, hy⟩ := findByNameCi_isSome_of_mem hc hlow.symm
  simp [update_company, hx, hy, hne]

theorem update_case_only_rename_conflict_witness :
    acmeCompany ∈ dbAcmeOnly.companies ∧
    acmeUpperPayload.name ≠ acmeCompany.name ∧
    lowerStr acmeUpperPayload.name = lowerStr acmeCompany.name ∧
    update_company acmeCompany.id acmeUpperPayload dbAcmeOnly =
      .error (.badRequest "Company with this name already exists") :=
  ⟨by decide, by decide, by decide,
   update_case_only_rename_conflict dbAcmeOnly acmeCompany acmeUpperPayload
     (by decide) (by decide) (by decide) (by decide) (by decide)⟩

theorem parseCompanyBase_some_fields {r : RawCompanyPayload} {c : CompanyBase}
    (h : parseCompanyBase r = some c) :
    r.name = some c.name ∧ r.tagline = some c.tagline ∧
    r.description = some c.description ∧ r.industry = some c.industry ∧
    r.founded_year = some c.founded_year ∧
    r.employee_count = some c.employee_count ∧
    r.headquarters = some c.headquarters := by
  cases hn : r.name <;> cases ht : r.tagline <;> cases hd : r.description <;>
    cases hi : r.industry <;> cases hf : r.founded_year <;>
    cases he : r.employee_count <;> cases hh : r.headquarters <;>
    simp_all [parseCompanyBase]
  subst h
  simp

/-- C7: update is full-record replacement.  A PUT body missing any
required base field is rejected by validation (the field is required)
and leaves the store untouched; a successful update sets exactly the
mutable base fields from the payload and preserves `id` and
`created_at` (and every company with a different id is untouched). -/
theorem update_full_replacement :
    (∀ (raw : RawCompanyPayload) (cid : Nat) (db : DB),
      (raw.name = none ∨ raw.tagline = none ∨ raw.description = none ∨
       raw.industry = none ∨ raw.founded_year = none ∨
       raw.employee_count = none ∨ raw.headquarters = none) →
      update_company_endpoint cid raw db =
        .error (.validationError "invalid company payload") ∧
      applyOp (.updateCompany cid raw) db = db) ∧
    (∀ (cid : Nat) (payload : CompanyBase) (db db2 : DB) (r : Company),
      update_company cid payload db = .ok (db2, r) →
      db2.products = db.products ∧
      (∀ x ∈ db.companies, x.id ≠ cid → x ∈ db2.companies) ∧
      (∀ x ∈ db.companies, x.id = cid →
        ∃ y, y ∈ db2.companies ∧ y.id = x.id ∧ y.created_at = x.created_at ∧
          y.name = payload.name ∧ y.tagline = payload.tagline ∧
          y.description = payload.description ∧ y.industry = payload.industry ∧
          y.founded_year = payload.founded_year ∧
          y.employee_count = payload.employee_count ∧
          y.headquarters = payload.headquarters ∧
          y.website_url = payload.website_url)) := by
  constructor
  · intro raw cid db h
    have hval : validateCompanyPayload raw = none := by
      cases hp : parseCompanyBase raw with
      | none => simp [validateCompanyPayload, hp]
      | some c =>
        obtain ⟨f1, f2, f3, f4, f5, f6, f7⟩ := parseCompanyBase_some_fields hp
        rcases h with h | h | h | h | h | h | h <;> simp_all
    exact ⟨by simp [update_company_endpoint, hval],
           by simp [applyOp, update_company_endpoint, hval]⟩
  · intro cid payload db db2 r h
    obtain ⟨hcomp, hprod⟩ := update_company_ok_inv h
    refine ⟨hprod, ?_, ?_⟩
    · intro x hx hne
      rw [hcomp]
      have hmem : (if x.id == cid then applyCompanyUpdate payload x else x) ∈
          db.companies.map
            (fun c => if c.id == cid then applyCompanyUpdate payload c else c) :=
        List.mem_map_of_mem _ hx
      rwa [if_neg (by simpa using hne)] at hmem
    · intro x hx heq
      refine ⟨applyCompanyUpdate payload x, ?_,
              rfl, rfl, rfl, rfl, rfl, rfl, rfl, rfl, rfl, rfl⟩
      rw [hcomp]
      have hmem : (if x.id == cid then applyCompanyUpdate payload x else x) ∈
          db.companies.map
            (fun c => if c.id == cid then applyCompanyUpdate payload c else c) :=
        List.mem_map_of_mem _ hx
      rwa [if_pos (by simpa using heq)] at hmem

def rawMissingTagline : RawCompanyPayload :=
  ⟨some "Zed", none, some "d", some "SaaS", some 2020, some 4, some "HQ", none⟩

theorem update_full_replacement_witness :
    (rawMissingTagline.name = none ∨ rawMissingTagline.tagline = none ∨
     rawMissingTagline.description = none ∨ rawMissingTagline.industry = none ∨
     rawMissingTagline.founded_year = none ∨
     rawMissingTagline.employee_count = none ∨
     rawMissingTagline.headquarters = none) ∧
    (update_company_endpoint 1 rawMissingTagline dbAcmeOnly =
        .error (.validationError "invalid company payload") ∧
      applyOp (.updateCompany 1 rawMissingTagline) dbAcmeOnly = dbAcmeOnly) ∧
    update_company 1 boltPayload dbAcmeOnly =
      .ok (⟨[applyCompanyUpdate boltPayload acmeCompany], [], 2, 1⟩,
           applyCompanyUpdate boltPayload acmeCompany) ∧
    ((⟨[applyCompanyUpdate boltPayload acmeCompany], [], 2, 1⟩ : DB).products =
        dbAcmeOnly.products ∧
      (∀ x ∈ dbAcmeOnly.companies, x.id ≠ 1 →
        x ∈ (⟨[applyCompanyUpdate boltPayload acmeCompany], [], 2, 1⟩ : DB).companies) ∧
      (∀ x ∈ dbAcmeOnly.companies, x.id = 1 →
        ∃ y, y ∈ (⟨[applyCompanyUpdate boltPayload acmeCompany], [], 2, 1⟩ : DB).companies ∧
          y.id = x.id ∧ y.created_at = x.created_at ∧
          y.name = boltPayload.name ∧ y.tagline = boltPayload.tagline ∧
          y.description = boltPayload.description ∧
          y.industry = boltPayload.industry ∧
          y.founded_year = boltPayload.founded_year ∧
          y.employee_count = boltPayload.employee_count ∧
          y.headquarters = boltPayload.headquarters ∧
          y.website_url = boltPayload.website_url)) :=
  ⟨Or.inr (Or.inl rfl),
   update_full_replacement.1 rawMissingTagline 1 dbAcmeOnly (Or.inr (Or.inl rfl)),
   by decide,
   update_full_replacement.2 1 boltPayload dbAcmeOnly
     ⟨[applyCompanyUpdate boltPayload acmeCompany], [], 2, 1⟩
     (applyCompanyUpdate boltPayload acmeCompany) (by decide)⟩

/-- A seed company whose `industry` and nested product `pricing_model`
both lie outside the closed enumerated sets. -/
def badSeedCompany : SeedCompany :=
  ⟨"ChainWorks", "t", "d", "Blockchain", 2020, 5, "HQ", none,
   [⟨"Ledger", "d", "a", "f", "PayPerUse"⟩]⟩

def dbAfterBadLoad : DB := insertSeedCompany badSeedCompany 0 emptyDB

/-- C3 counterexample: the bulk loader constructs the store rows
directly from the document (no schema validation), so a company with
industry `Blockchain` — a value the data-model contract rejects — is
inserted and counted as loaded, together with a product whose
`pricing_model` is outside its closed set. -/
theorem bulk_load_bypasses_validation_cex :
    load_data_from_json (.parsed ⟨[badSeedCompany]⟩) 0 emptyDB =
      .ok (dbAfterBadLoad, ⟨1, 0, 1⟩) ∧
    dbAfterBadLoad.companies.map Company.industry = ["Blockchain"] ∧
    industries.contains "Blockchain" = false ∧
    dbAfterBadLoad.products.map Product.pricing_model = ["PayPerUse"] ∧
    pricingModels.contains "PayPerUse" = false ∧
    CompanyBase.valid ⟨"ChainWorks", "t", "d", "Blockchain", 2020, 5, "HQ", none⟩
      = false ∧
    ProductBase.valid ⟨"Ledger", "d", "a", "f", "PayPerUse"⟩ = false := by
  refine ⟨rfl, rfl, rfl, rfl, rfl, ?_, ?_⟩ <;> decide

/-- C3 amended: the field contracts are enforced for payloads arriving
through the API endpoints — a request whose validation fails (in
particular an `industry` or `pricing_model` outside its closed set) is
rejected before anything is persisted — but the bulk loader applies no
schema validation at all: it inserts every non-duplicate record of a
parsed document verbatim and never fails on field contents. -/
theorem validation_at_api_not_in_loader :
    (∀ (raw : RawCompanyPayload) (now : Nat) (db : DB),
      validateCompanyPayload raw = none →
      create_company_endpoint raw now db =
        .error (.validationError "invalid company payload") ∧
      applyOp (.createCompany raw now) db = db) ∧
    (∀ (raw : RawProductPayload) (now : Nat) (db : DB),
      validateProductCreate raw = none →
      create_product_endpoint raw now db =
        .error (.validationError "invalid product payload") ∧
      applyOp (.createProduct raw now) db = db) ∧
    (∀ c : CompanyBase, industries.contains c.industry = false →
      c.valid = false) ∧
    (∀ p : ProductBase, pricingModels.contains p.pricing_model = false →
      p.valid = false) ∧
    (∀ (doc : SeedDocument) (now : Nat) (db : DB),
      ∃ r, load_data_from_json (.parsed doc) now db = .ok r) := by
  refine ⟨?_, ?_, ?_, ?_, ?_⟩
  · intro raw now db hval
    exact ⟨by simp [create_company_endpoint, hval],
           by simp [applyOp, create_company_endpoint, hval]⟩
  · intro raw now db hval
    exact ⟨by simp [create_product_endpoint, hval],
           by simp [applyOp, create_product_endpoint, hval]⟩
  · intro c h
    have hnm : c.industry ∉ industries := by
      intro hm
      simp [List.contains_iff_exists_mem_beq] at h
      exact h hm
    simp [CompanyBase.valid, hnm]
  · intro p h
    have hnm : p.pricing_model ∉ pricingModels := by
      intro hm
      simp [List.contains_iff_exists_mem_beq] at h
      exact h hm
    simp [ProductBase.valid, hnm]
  · intro doc now db
    exact ⟨_, rfl⟩

def rawBadIndustry : RawCompanyPayload :=
  ⟨some "ChainWorks", some "t", some "d", some "Blockchain", some 2020, some 5,
   some "HQ", none⟩

def rawBadPricing : RawProductPayload :=
  ⟨some "Ledger", some "d", some "a", some "f", some "PayPerUse", some 1⟩

theorem validation_at_api_not_in_loader_witness :
    validateCompanyPayload rawBadIndustry = none ∧
    (create_company_endpoint rawBadIndustry 0 dbAcmeOnly =
        .error (.validationError "invalid company payload") ∧
      applyOp (.createCompany rawBadIndustry 0) dbAcmeOnly = dbAcmeOnly) ∧
    validateProductCreate rawBadPricing = none ∧
    (create_product_endpoint rawBadPricing 0 dbAcmeOnly =
        .error (.validationError "invalid product payload") ∧
      applyOp (.createProduct rawBadPricing 0) dbAcmeOnly = dbAcmeOnly) ∧
    industries.contains "Blockchain" = false ∧
    CompanyBase.valid ⟨"ChainWorks", "t", "d", "Blockchain", 2020, 5, "HQ", none⟩
      = false ∧
    pricingModels.contains "PayPerUse" = false ∧
    ProductBase.valid ⟨"Ledger", "d", "a", "f", "PayPerUse"⟩ = false ∧
    (∃ r, load_data_from_json (.parsed ⟨[badSeedCompany]⟩) 0 emptyDB = .ok r) :=
  ⟨by decide,
   validation_at_api_not_in_loader.1 rawBadIndustry 0 dbAcmeOnly (by decide),
   by decide,
   validation_at_api_not_in_loader.2.1 rawBadPricing 0 dbAcmeOnly (by decide),
   by decide,
   validation_at_api_not_in_loader.2.2.1
     ⟨"ChainWorks", "t", "d", "Blockchain", 2020, 5, "HQ", none⟩ (by decide),
   by decide,
   validation_at_api_not_in_loader.2.2.2.1
     ⟨"Ledger", "d", "a", "f", "PayPerUse"⟩ (by decide),
   validation_at_api_not_in_loader.2.2.2.2 ⟨[badSeedCompany]⟩ 0 emptyDB⟩

theorem noOrphans_insertSeedCompany {db : DB} (cd : SeedCompany) (now : Nat)
    (h : noOrphans db) : noOrphans (insertSeedCompany cd now db) := by
  intro p hp
  simp only [insertSeedCompany] at hp ⊢
  rw [insertSeedProducts_companies]
  rcases mem_insertSeedProducts hp with h2 | h2
  · obtain ⟨c0, hc0, hcid⟩ := h p h2
    exact ⟨c0, List.mem_append_left _ hc0, hcid⟩
  · refine ⟨⟨db.nextCompanyId, cd.name, cd.tagline, cd.description, cd.industry,
            cd.founded_year, cd.employee_count, cd.headquarters, cd.website_url, now⟩,
            List.mem_append_right _ (by simp), h2.symm⟩

theorem noOrphans_loadCompanies (docs : List SeedCompany) (now : Nat) :
    ∀ (db : DB) (l s : Nat), noOrphans db →
      noOrphans (loadCompanies docs now db l s).1 := by
  induction docs with
  | nil => intro db l s h; exact h
  | cons cd rest ih =>
    intro db l s h
    have hstep : loadCompanies (cd :: rest) now db l s =
        match findByNameCi db cd.name with
        | some _ => loadCompanies rest now db l (s + 1)
        | none => loadCompanies rest now (insertSeedCompany cd now db) (l + 1) s := rfl
    rw [hstep]
    cases hf : findByNameCi db cd.name with
    | some x => exact ih db l (s + 1) h
    | none => exact ih _ (l + 1) s (noOrphans_insertSeedCompany cd now h)

theorem noOrphans_applyOp (op : Op) (db : DB) (h : noOrphans db) :
    noOrphans (applyOp op db) := by
  cases op with
  | loadData input now =>
    cases input with
    | fileMissing => exact h
    | parseError => exact h
    | parsed doc =>
      have : applyOp (.loadData (.parsed doc) now) db =
          (loadCompanies doc.companies now db 0 0).1 := rfl
      rw [this]
      exact noOrphans_loadCompanies doc.companies now db 0 0 h
  | createCompany raw now =>
    cases hv : validateCompanyPayload raw with
    | none => simpa [applyOp, create_company_endpoint, hv] using h
    | some payload =>
      cases hres : create_company payload now db with
      | error e => simpa [applyOp, create_company_endpoint, hv, hres] using h
      | ok v =>
        obtain ⟨db2, c⟩ := v
        have happ : applyOp (.createCompany raw now) db = db2 := by
          simp [applyOp, create_company_endpoint, hv, hres]
        obtain ⟨hcomp, hprod⟩ := create_company_ok_inv hres
        rw [happ]
        intro p hp
        rw [hprod] at hp
        obtain ⟨c0, hc0, hcid⟩ := h p hp
        exact ⟨c0, by rw [hcomp]; exact List.mem_append_left _ hc0, hcid⟩
  | updateCompany cid raw =>
    cases hv : validateCompanyPayload raw with
    | none => simpa [applyOp, update_company_endpoint, hv] using h
    | some payload =>
      cases hres : update_company cid payload db with
      | error e => simpa [applyOp, update_company_endpoint, hv, hres] using h
      | ok v =>
        obtain ⟨db2, r⟩ := v
        have happ : applyOp (.updateCompany cid raw) db = db2 := by
          simp [applyOp, update_company_endpoint, hv, hres]
        obtain ⟨hcomp, hprod⟩ := update_company_ok_inv hres
        rw [happ]
        intro p hp
        rw [hprod] at hp
        obtain ⟨c0, hc0, hcid⟩ := h p hp
        have hmem : (if c0.id == cid then applyCompanyUpdate payload c0 else c0) ∈
            db.companies.map
              (fun c => if c.id == cid then applyCompanyUpdate payload c else c) :=
          List.mem_map_of_mem _ hc0
        refine ⟨if c0.id == cid then applyCompanyUpdate payload c0 else c0,
                by rw [hcomp]; exact hmem, ?_⟩
        split
        · exact hcid
        · exact hcid
  | deleteCompany cid =>
    cases hres : delete_company cid db with
    | error e => simpa [applyOp, hres] using h
    | ok db2 =>
      have happ : applyOp (.deleteCompany cid) db = db2 := by
        simp [applyOp, hres]
      obtain ⟨hcomp, hprod⟩ := delete_company_ok_inv hres
      rw [happ]
      intro p hp
      rw [hprod] at hp
      rw [List.mem_filter] at hp
      obtain ⟨hpmem, hpne⟩ := hp
      obtain ⟨c0, hc0, hcid⟩ := h p hpmem
      refine ⟨c0, ?_, hcid⟩
      rw [hcomp, List.mem_filter]
      refine ⟨hc0, ?_⟩
      simp only [bne_iff_ne] at hpne ⊢
      rw [hcid]
      exact hpne
  | createProduct raw now =>
    cases hv : validateProductCreate raw with
    | none => simpa [applyOp, create_product_endpoint, hv] using h
    | some payload =>
      cases hres : create_product payload now db with
      | error e => simpa [applyOp, create_product_endpoint, hv, hres] using h
      | ok v =>
        obtain ⟨db2, p0⟩ := v
        have happ : applyOp (.createProduct raw now) db = db2 := by
          simp [applyOp, create_product_endpoint, hv, hres]
        obtain ⟨hcomp, hprod, hpid, c0, hc0, hcid⟩ := create_product_ok_inv hres
        rw [happ]
        intro p hp
        rw [hprod] at hp
        rcases List.mem_append.mp hp with h2 | h2
        · obtain ⟨c1, hc1, hcid1⟩ := h p h2
          exact ⟨c1, by rw [hcomp]; exact hc1, hcid1⟩
        · have : p = p0 := by simpa using h2
          subst this
          exact ⟨c0, by rw [hcomp]; exact hc0, by rw [hcid, ← hpid]⟩
  | updateProduct pid raw =>
    cases hv : validateProductUpdate raw with
    | none => simpa [applyOp, update_product_endpoint, hv] using h
    | some payload =>
      cases hres : update_product pid payload db with
      | error e => simpa [applyOp, update_product_endpoint, hv, hres] using h
      | ok v =>
        obtain ⟨db2, r⟩ := v
        have happ : applyOp (.updateProduct pid raw) db = db2 := by
          simp [applyOp, update_product_endpoint, hv, hres]
        obtain ⟨hcomp, hprod⟩ := update_product_ok_inv hres
        rw [happ]
        intro p hp
        rw [hprod] at hp
        obtain ⟨q, hq, hqe⟩ := List.mem_map.mp hp
        obtain ⟨c0, hc0, hcid⟩ := h q hq
        refine ⟨c0, by rw [hcomp]; exact hc0, ?_⟩
        rw [hcid]
        have : p.company_id = q.company_id := by
          rw [← hqe]
          split <;> rfl
        rw [this]
  | deleteProduct pid =>
    cases hres : delete_product pid db with
    | error e => simpa [applyOp, hres] using h
    | ok db2 =>
      have happ : applyOp (.deleteProduct pid) db = db2 := by
        simp [applyOp, hres]
      obtain ⟨hcomp, hprod⟩ := delete_product_ok_inv hres
      rw [happ]
      intro p hp
      rw [hprod] at hp
      rw [List.mem_filter] at hp
      obtain ⟨c0, hc0, hcid⟩ := h p hp.1
      exact ⟨c0, by rw [hcomp]; exact hc0, hcid⟩

/-- C6: deleting a company removes it and all of its products in one
operation — a subsequent get on the company id or on any of its product
ids signals NotFound, while other companies and products survive — and
every state-changing operation preserves referential integrity: every
stored product's `company_id` refers to an existing company. -/
theorem cascade_delete_spec :
    (∀ (db : DB) (c : Company),
      c ∈ db.companies →
      (db.products.map Product.id).Nodup →
      ∃ db2, delete_company c.id db = .ok db2 ∧
        get_company c.id db2 = .error (.notFound "Company not found") ∧
        (∀ p ∈ db.products, p.company_id = c.id →
          get_product p.id db2 = .error (.notFound "Product not found")) ∧
        (∀ x ∈ db.companies, x.id ≠ c.id → x ∈ db2.companies) ∧
        (∀ p ∈ db.products, p.company_id ≠ c.id → p ∈ db2.products)) ∧
    (∀ (op : Op) (db : DB), noOrphans db → noOrphans (applyOp op db)) := by
  constructor
  · intro db c hc hnodup
    obtain ⟨x, hx, hxm, hxid⟩ := findCompanyById_some_of_mem hc
    have hdel : delete_company c.id db = .ok
        { db with companies := db.companies.filter (fun y => y.id != c.id),
                  products := db.products.filter (fun p => p.company_id != c.id) } := by
      unfold delete_company
      rw [hx]
    refine ⟨_, hdel, ?_, ?_, ?_, ?_⟩
    · have hnone : findCompanyById
          { db with companies := db.companies.filter (fun y => y.id != c.id),
                    products := db.products.filter (fun p => p.company_id != c.id) }
          c.id = none := by
        rw [findCompanyById, List.find?_eq_none]
        intro y hy
        have := (List.mem_filter.mp hy).2
        simpa using this
      simp [get_company, hnone]
    · intro p hp hpc
      have hnone : findProductById
          { db with companies := db.companies.filter (fun y => y.id != c.id),
                    products := db.products.filter (fun p => p.company_id != c.id) }
          p.id = none := by
        rw [findProductById, List.find?_eq_none]
        intro q hq
        obtain ⟨hqm, hqne⟩ := List.mem_filter.mp hq
        intro hbeq
        have hqp : q = p :=
          List.inj_on_of_nodup_map hnodup hqm hp (by simpa using hbeq)
        rw [hqp] at hqne
        rw [hpc] at hqne
        simp at hqne
      simp [get_product, hnone]
    · intro y hy hne
      rw [List.mem_filter]
      exact ⟨hy, by simpa using hne⟩
    · intro p hp hne
      rw [List.mem_filter]
      exact ⟨hp, by simpa using hne⟩
  · exact fun op db h => noOrphans_applyOp op db h

def boltCompany : Company := ⟨2, "Bolt", "t", "d", "SaaS", 2021, 5, "HQ", none, 0⟩

def prodA : Product := ⟨1, 1, "A", "d", "a", "f", "Free", 0⟩

def prodB : Product := ⟨2, 1, "B", "d", "a", "f", "Free", 0⟩

def prodC : Product := ⟨3, 2, "C", "d", "a", "f", "Subscription", 0⟩

def dbCascade : DB := ⟨[acmeCompany, boltCompany], [prodA, prodB, prodC], 3, 4⟩

theorem cascade_delete_spec_witness :
    acmeCompany ∈ dbCascade.companies ∧
    (dbCascade.products.map Product.id).Nodup ∧
    (∃ db2, delete_company acmeCompany.id dbCascade = .ok db2 ∧
      get_company acmeCompany.id db2 = .error (.notFound "Company not found") ∧
      (∀ p ∈ dbCascade.products, p.company_id = acmeCompany.id →
        get_product p.id db2 = .error (.notFound "Product not found")) ∧
      (∀ x ∈ dbCascade.companies, x.id ≠ acmeCompany.id → x ∈ db2.companies) ∧
      (∀ p ∈ dbCascade.products, p.company_id ≠ acmeCompany.id → p ∈ db2.products)) ∧
    noOrphans dbCascade ∧
    noOrphans (applyOp (.deleteCompany 1) dbCascade) :=
  ⟨by decide, by decide,
   cascade_delete_spec.1 dbCascade acmeCompany (by decide) (by decide),
   by unfold noOrphans; decide,
   cascade_delete_spec.2 (.deleteCompany 1) dbCascade (by unfold noOrphans; decide)⟩
